import Mathlib

/-!
Verification of the depth-map evaluation pipeline of this repository.

The repository consists of a driver (`testing.py`, present in the sources)
that, per sample, clamps the network prediction to a positive floor, masks
both grids by validity of the ground truth, flattens them, calls three
metric routines, stores each scalar at the sample's index of twelve
pre-allocated arrays, and finally aggregates the arrays with a NaN-skipping
mean for console and file output.

The three metric routines live in `lib/utils/evaluate_ibims_error_metrics.py`,
which is not among the available sources; they are modelled from the
specification (section 4) and marked as such below.

Modelling conventions:
  * a float scalar is modelled as a real number; a scalar that may be NaN is
    modelled as `Option ℝ` with `none` standing for NaN;
  * the concrete float entries of the input arrays are modelled as rationals
    (`ℚ`), so that validity filters and edge extraction stay decidable;
  * a 2-D grid is a function `Fin m → Fin n → ℚ`; row-major flattening uses
    `finProdFinEquiv`.
-/

set_option linter.unusedVariables false

/-- The positions of the zipped input vectors where the ground truth is
strictly positive (the "valid" set of the spec, section 4.1). -/
def validPairs (gt pred : List ℚ) : List (ℚ × ℚ) :=
  (gt.zip pred).filter (fun p => 0 < p.1)

/-- Mean of a list of reals, `none` (NaN) on the empty list. -/
noncomputable def meanR (xs : List ℝ) : Option ℝ :=
  if xs = [] then none else some (xs.sum / xs.length)

/-- Modelled from the spec: `compute_global_errors` of
`lib/utils/evaluate_ibims_error_metrics.py` (imported by `src/testing.py`
line 16, called at line 114, but itself not among the sources).  Per spec
section 4.1: restrict to valid positions (`gt > 0`); if the valid set is
empty every output is NaN; otherwise return, in order,
`(abs_rel, sq_rel, rms, log10, thr1, thr2, thr3)` with
`abs_rel` the mean of `|gt - pred| / gt`, `sq_rel` the mean of
`(gt - pred)^2 / gt`, `rms` the square root of the mean squared difference,
`log10` the mean of `|log10 gt - log10 pred|`, and `thr_k` the fraction of
valid positions with `max (gt/pred) (pred/gt) < 1.25^k`. -/
noncomputable def compute_global_errors (gt pred : List ℚ) :
    Option ℝ × Option ℝ × Option ℝ × Option ℝ × Option ℝ × Option ℝ × Option ℝ :=
  let v := validPairs gt pred
  if v.length = 0 then (none, none, none, none, none, none, none)
  else
    let n : ℝ := v.length
    (some ((v.map (fun p => |(p.1 : ℝ) - (p.2 : ℝ)| / (p.1 : ℝ))).sum / n),
     some ((v.map (fun p => ((p.1 : ℝ) - (p.2 : ℝ)) ^ 2 / (p.1 : ℝ))).sum / n),
     some (Real.sqrt ((v.map (fun p => ((p.1 : ℝ) - (p.2 : ℝ)) ^ 2)).sum / n)),
     some ((v.map (fun p => |Real.logb 10 (p.1 : ℝ) - Real.logb 10 (p.2 : ℝ)|)).sum / n),
     some (((v.filter (fun p => max (p.1 / p.2) (p.2 / p.1) < (5 / 4 : ℚ) ^ 1)).length : ℝ) / n),
     some (((v.filter (fun p => max (p.1 / p.2) (p.2 / p.1) < (5 / 4 : ℚ) ^ 2)).length : ℝ) / n),
     some (((v.filter (fun p => max (p.1 / p.2) (p.2 / p.1) < (5 / 4 : ℚ) ^ 3)).length : ℝ) / n))

/-- Spec formula, section 4.1: `abs_rel` is the mean over valid positions of
`|gt - pred| / gt`. -/
noncomputable def abs_rel_spec (gt pred : List ℚ) : Option ℝ :=
  meanR ((validPairs gt pred).map (fun p => |(p.1 : ℝ) - (p.2 : ℝ)| / (p.1 : ℝ)))

/-- Spec formula, section 4.1: `sq_rel` is the mean over valid positions of
`(gt - pred)^2 / gt`. -/
noncomputable def sq_rel_spec (gt pred : List ℚ) : Option ℝ :=
  meanR ((validPairs gt pred).map (fun p => ((p.1 : ℝ) - (p.2 : ℝ)) ^ 2 / (p.1 : ℝ)))

/-- Spec formula, section 4.1: `rms` is the square root of the mean squared
difference over valid positions. -/
noncomputable def rms_spec (gt pred : List ℚ) : Option ℝ :=
  (meanR ((validPairs gt pred).map (fun p => ((p.1 : ℝ) - (p.2 : ℝ)) ^ 2))).map Real.sqrt

/-- Spec formula, section 4.1: `log10` is the mean over valid positions of
`|log10 gt - log10 pred|`. -/
noncomputable def log10_spec (gt pred : List ℚ) : Option ℝ :=
  meanR ((validPairs gt pred).map
    (fun p => |Real.logb 10 (p.1 : ℝ) - Real.logb 10 (p.2 : ℝ)|))

/-- Spec formula, section 4.1: `thr_k` is the fraction of valid positions
where `max (gt/pred) (pred/gt) < 1.25 ^ k`. -/
noncomputable def thr_spec (gt pred : List ℚ) (k : ℕ) : Option ℝ :=
  let v := validPairs gt pred
  if v = [] then none
  else some (((v.filter (fun p => max (p.1 / p.2) (p.2 / p.1) < (5 / 4 : ℚ) ^ k)).length : ℝ)
      / (v.length : ℝ))

/-- Modelled from the spec: `compute_directed_depth_error` of
`lib/utils/evaluate_ibims_error_metrics.py` (imported by `src/testing.py`
line 17, called at line 116 with threshold factor 3.0, but itself not among
the sources).  Per spec section 4.3: over the valid set, with per-position
r = pred / gt, return `(dde_0, dde_m, dde_p)` = fractions of positions with
`1/t ≤ r ≤ t`, with `r < 1/t`, and with `r > t`; all NaN when the valid set
is empty. -/
noncomputable def compute_directed_depth_error (gt pred : List ℚ) (t : ℚ) :
    Option ℝ × Option ℝ × Option ℝ :=
  let v := validPairs gt pred
  if v.length = 0 then (none, none, none)
  else
    let rs := v.map (fun p => p.2 / p.1)
    let n : ℝ := v.length
    (some (((rs.filter (fun r => 1 / t ≤ r ∧ r ≤ t)).length : ℝ) / n),
     some (((rs.filter (fun r => r < 1 / t)).length : ℝ) / n),
     some (((rs.filter (fun r => t < r)).length : ℝ) / n))

theorem validPairs_nil_iff (gt pred : List ℚ) :
    (validPairs gt pred).length = 0 ↔ validPairs gt pred = [] := by
  simp [List.length_eq_zero]

theorem length_filter_le_of_imp {α : Type} (l : List α) (p q : α → Bool)
    (h : ∀ a ∈ l, p a = true → q a = true) :
    (l.filter p).length ≤ (l.filter q).length := by
  induction l with
  | nil => simp
  | cons a l ih =>
    have ih' := ih (fun b hb hp => h b (List.mem_cons_of_mem _ hb) hp)
    by_cases hp : p a = true
    · have hq := h a (List.mem_cons_self a l) hp
      simp [List.filter_cons, hp, hq]
      omega
    · by_cases hq : q a = true
      · simp [List.filter_cons, hp, hq]
        omega
      · simp [List.filter_cons, hp, hq]
        omega

theorem filter_trichotomy_length (t : ℚ) (ht : 1 < t) (rs : List ℚ) :
    (rs.filter (fun r => 1 / t ≤ r ∧ r ≤ t)).length +
      (rs.filter (fun r => r < 1 / t)).length +
      (rs.filter (fun r => t < r)).length = rs.length := by
  have h0 : 0 < t := lt_trans one_pos ht
  have hinv : 1 / t < t := by
    have h1 : 1 / t < 1 := by rw [div_lt_one h0]; exact ht
    linarith
  induction rs with
  | nil => simp
  | cons r rs ih =>
    simp only [List.filter_cons, decide_eq_true_eq]
    by_cases h1 : r < 1 / t
    · have h2 : ¬ (1 / t ≤ r ∧ r ≤ t) := by
        intro hc
        linarith [hc.1]
      have h3 : ¬ t < r := by linarith
      rw [if_neg h2, if_pos h1, if_neg h3]
      simp only [List.length_cons]
      omega
    · push_neg at h1
      by_cases h2 : r ≤ t
      · have hand : (1 / t ≤ r ∧ r ≤ t) := ⟨h1, h2⟩
        have h3 : ¬ t < r := not_lt.mpr h2
        have h4 : ¬ r < 1 / t := not_lt.mpr h1
        rw [if_pos hand, if_neg h4, if_neg h3]
        simp only [List.length_cons]
        omega
      · push_neg at h2
        have h3 : ¬ (1 / t ≤ r ∧ r ≤ t) := by
          intro hc
          linarith [hc.2]
        have h4 : ¬ r < 1 / t := not_lt.mpr h1
        rw [if_neg h3, if_neg h4, if_pos h2]
        simp only [List.length_cons]
        omega

/-- The fraction of valid positions whose two-sided ratio is below
`1.25 ^ k` (the value inside `thr_spec` when the valid set is non-empty). -/
noncomputable def thrFrac (gt pred : List ℚ) (k : ℕ) : ℝ :=
  (((validPairs gt pred).filter
      (fun p => max (p.1 / p.2) (p.2 / p.1) < (5 / 4 : ℚ) ^ k)).length : ℝ)
    / ((validPairs gt pred).length : ℝ)

theorem thrFrac_mono (gt pred : List ℚ) {j k : ℕ} (hjk : j ≤ k) :
    thrFrac gt pred j ≤ thrFrac gt pred k := by
  unfold thrFrac
  have hcount : (((validPairs gt pred).filter
      (fun p => max (p.1 / p.2) (p.2 / p.1) < (5 / 4 : ℚ) ^ j)).length ≤
      ((validPairs gt pred).filter
      (fun p => max (p.1 / p.2) (p.2 / p.1) < (5 / 4 : ℚ) ^ k)).length) := by
    apply length_filter_le_of_imp
    intro a ha hpa
    simp only [decide_eq_true_eq] at hpa ⊢
    exact lt_of_lt_of_le hpa (pow_le_pow_right₀ (by norm_num) hjk)
  rcases Nat.eq_zero_or_pos (validPairs gt pred).length with hz | hp
  · rw [hz]
    simp
  · have hpos : (0 : ℝ) < ((validPairs gt pred).length : ℝ) := by exact_mod_cast hp
    exact (div_le_div_iff_of_pos_right hpos).mpr (by exact_mod_cast hcount)

/-- C3: the delta-accuracy outputs of `compute_global_errors` are monotone in
the threshold exponent: either the valid set is empty and all three are NaN
together, or `thr1 ≤ thr2 ≤ thr3`, the defining events being nested. -/
theorem compute_global_errors_thr_monotone (gt pred : List ℚ) :
    ((compute_global_errors gt pred).2.2.2.2 = (none, none, none) ∧
        validPairs gt pred = []) ∨
      ((compute_global_errors gt pred).2.2.2.2 =
          (some (thrFrac gt pred 1), some (thrFrac gt pred 2), some (thrFrac gt pred 3)) ∧
        thrFrac gt pred 1 ≤ thrFrac gt pred 2 ∧ thrFrac gt pred 2 ≤ thrFrac gt pred 3) := by
  by_cases hv : (validPairs gt pred).length = 0
  · left
    constructor
    · unfold compute_global_errors
      simp [hv]
    · exact List.length_eq_zero.mp hv
  · right
    refine ⟨?_, thrFrac_mono gt pred (by norm_num), thrFrac_mono gt pred (by norm_num)⟩
    unfold compute_global_errors thrFrac
    simp [hv]

/-- C1: `compute_global_errors`, applied to two equal-length flattened
vectors, returns exactly seven scalars in the order
`(abs_rel, sq_rel, rms, log10, thr1, thr2, thr3)`, each computed over the
positions where the ground truth is positive according to the spec's
formulas. -/
theorem compute_global_errors_formulas (gt pred : List ℚ)
    (h : gt.length = pred.length) :
    compute_global_errors gt pred =
      (abs_rel_spec gt pred, sq_rel_spec gt pred, rms_spec gt pred,
       log10_spec gt pred, thr_spec gt pred 1, thr_spec gt pred 2,
       thr_spec gt pred 3) := by
  unfold compute_global_errors abs_rel_spec sq_rel_spec rms_spec log10_spec thr_spec meanR
  by_cases hv : validPairs gt pred = []
  · simp [hv]
  · have hlen : ¬ (validPairs gt pred).length = 0 := by
      simpa [List.length_eq_zero] using hv
    simp [hv, hlen]

/-- Witness for C1 at the spec's concrete scenario `gt = pred = [2, 4]`. -/
theorem compute_global_errors_formulas_witness :
    compute_global_errors [2, 4] [2, 4] =
      (abs_rel_spec [2, 4] [2, 4], sq_rel_spec [2, 4] [2, 4],
       rms_spec [2, 4] [2, 4], log10_spec [2, 4] [2, 4],
       thr_spec [2, 4] [2, 4] 1, thr_spec [2, 4] [2, 4] 2,
       thr_spec [2, 4] [2, 4] 3) :=
  compute_global_errors_formulas [2, 4] [2, 4] rfl

/-- C6: when the valid set is empty (in particular for an all-zero
ground-truth vector), `compute_global_errors` returns NaN for all seven
outputs; being a total function, it raises no error. -/
theorem compute_global_errors_empty (gt pred : List ℚ)
    (h : validPairs gt pred = []) :
    compute_global_errors gt pred = (none, none, none, none, none, none, none) := by
  unfold compute_global_errors
  simp [h]

/-- Witness for C6 at the all-zero ground-truth vector `[0, 0]`. -/
theorem compute_global_errors_empty_witness :
    compute_global_errors [0, 0] [1, 2] =
      (none, none, none, none, none, none, none) :=
  compute_global_errors_empty [0, 0] [1, 2] (by decide)

/-- The fraction of valid positions whose ratio `pred / gt` lies in
`[1/t, t]` (the `dde_0` value when the valid set is non-empty). -/
noncomputable def dde0Frac (gt pred : List ℚ) (t : ℚ) : ℝ :=
  ((((validPairs gt pred).map (fun p => p.2 / p.1)).filter
      (fun r => 1 / t ≤ r ∧ r ≤ t)).length : ℝ)
    / ((validPairs gt pred).length : ℝ)

/-- The fraction of valid positions whose ratio `pred / gt` is below `1/t`
(the `dde_m` value when the valid set is non-empty). -/
noncomputable def ddemFrac (gt pred : List ℚ) (t : ℚ) : ℝ :=
  ((((validPairs gt pred).map (fun p => p.2 / p.1)).filter
      (fun r => r < 1 / t)).length : ℝ)
    / ((validPairs gt pred).length : ℝ)

/-- The fraction of valid positions whose ratio `pred / gt` is above `t`
(the `dde_p` value when the valid set is non-empty). -/
noncomputable def ddepFrac (gt pred : List ℚ) (t : ℚ) : ℝ :=
  ((((validPairs gt pred).map (fun p => p.2 / p.1)).filter
      (fun r => t < r)).length : ℝ)
    / ((validPairs gt pred).length : ℝ)

/-- C2: for every input pair with a non-empty valid set and every threshold
factor `t > 1`, `compute_directed_depth_error` returns the three mutually
exclusive class fractions of the valid set and they sum exactly to 1. -/
theorem compute_directed_depth_error_sum (gt pred : List ℚ) (t : ℚ)
    (hne : validPairs gt pred ≠ []) (ht : 1 < t) :
    compute_directed_depth_error gt pred t =
      (some (dde0Frac gt pred t), some (ddemFrac gt pred t),
       some (ddepFrac gt pred t)) ∧
    dde0Frac gt pred t + ddemFrac gt pred t + ddepFrac gt pred t = 1 := by
  have hlen : ¬ (validPairs gt pred).length = 0 := by
    simpa [List.length_eq_zero] using hne
  have hpos : (0 : ℝ) < ((validPairs gt pred).length : ℝ) := by
    exact_mod_cast Nat.pos_of_ne_zero hlen
  constructor
  · unfold compute_directed_depth_error dde0Frac ddemFrac ddepFrac
    simp [hlen]
  · have hpart :=
      filter_trichotomy_length t ht ((validPairs gt pred).map (fun p => p.2 / p.1))
    rw [List.length_map] at hpart
    have hsum :
        ((((validPairs gt pred).map (fun p => p.2 / p.1)).filter
            (fun r => 1 / t ≤ r ∧ r ≤ t)).length : ℝ) +
          ((((validPairs gt pred).map (fun p => p.2 / p.1)).filter
            (fun r => r < 1 / t)).length : ℝ) +
          ((((validPairs gt pred).map (fun p => p.2 / p.1)).filter
            (fun r => t < r)).length : ℝ) =
          ((validPairs gt pred).length : ℝ) := by
      exact_mod_cast hpart
    unfold dde0Frac ddemFrac ddepFrac
    rw [div_add_div_same, div_add_div_same, hsum]
    exact div_self (ne_of_gt hpos)

/-- Witness for C2 at the spec's concrete scenario: `gt = [2, 4]`,
`pred = [4, 2]`, `t = 3`. -/
theorem compute_directed_depth_error_sum_witness :
    compute_directed_depth_error [2, 4] [4, 2] 3 =
      (some (dde0Frac [2, 4] [4, 2] 3), some (ddemFrac [2, 4] [4, 2] 3),
       some (ddepFrac [2, 4] [4, 2] 3)) ∧
    dde0Frac [2, 4] [4, 2] 3 + ddemFrac [2, 4] [4, 2] 3 +
      ddepFrac [2, 4] [4, 2] 3 = 1 :=
  compute_directed_depth_error_sum [2, 4] [4, 2] 3 (by decide) (by norm_num)

/-- Modelled from the spec (section 4.2, step 1): squared magnitude of the
forward-difference depth gradient at a pixel; differences past the last row
or column are taken as zero.  The kernel is a fixed configuration choice the
spec leaves to the implementer. -/
def gradSqAt {m n : ℕ} (d : Fin m → Fin n → ℚ) (i : Fin m) (j : Fin n) : ℚ :=
  (if h : (i : ℕ) + 1 < m then d ⟨(i : ℕ) + 1, h⟩ j - d i j else 0) ^ 2 +
    (if h : (j : ℕ) + 1 < n then d i ⟨(j : ℕ) + 1, h⟩ - d i j else 0) ^ 2

/-- Modelled from the spec (section 4.2, step 1): fixed edge-extraction
threshold, compared against the squared gradient magnitude. -/
def gradThreshSq : ℚ := 1 / 10

/-- Modelled from the spec (section 4.2, step 1): the predicted-edge pixels,
those whose depth-gradient magnitude exceeds the fixed threshold. -/
def predEdges {m n : ℕ} (d : Fin m → Fin n → ℚ) : Finset (Fin m × Fin n) :=
  Finset.univ.filter (fun p => gradThreshSq < gradSqAt d p.1 p.2)

/-- The reference-edge pixels of an externally supplied edge map. -/
def refEdges {m n : ℕ} (e : Fin m → Fin n → Bool) : Finset (Fin m × Fin n) :=
  Finset.univ.filter (fun p => e p.1 p.2 = true)

/-- Modelled from the spec (section 4.2, step 5): maximum tolerance radius,
in pixels, at which boundary distances are capped. -/
noncomputable def dbeCap : ℝ := 10

/-- Euclidean distance between two pixel locations. -/
noncomputable def pixelDist {m n : ℕ} (p q : Fin m × Fin n) : ℝ :=
  Real.sqrt ((((p.1 : ℕ) : ℝ) - ((q.1 : ℕ) : ℝ)) ^ 2 +
    (((p.2 : ℕ) : ℝ) - ((q.2 : ℕ) : ℝ)) ^ 2)

/-- Modelled from the spec (section 4.2, steps 2 and 5): capped Euclidean
distance transform — the distance from a pixel to the nearest pixel of the
edge set, clamped at `dbeCap`; when the edge set is empty every pixel is at
the capped maximum distance. -/
noncomputable def distToEdges {m n : ℕ} (E : Finset (Fin m × Fin n))
    (p : Fin m × Fin n) : ℝ :=
  if h : E.Nonempty then min (E.inf' h (fun q => pixelDist p q)) dbeCap else dbeCap

/-- Modelled from the spec: `compute_depth_boundary_error` of
`lib/utils/evaluate_ibims_error_metrics.py` (imported by `src/testing.py`
line 17, called at line 115, but itself not among the sources).  Per spec
section 4.2: extract predicted edges by thresholding the depth-gradient
magnitude, then return `(dbe_acc, dbe_com, predicted_edges)` where `dbe_acc`
is the mean capped distance from predicted-edge pixels to the nearest
reference edge (NaN if there is no predicted edge) and `dbe_com` is the mean
capped distance from reference-edge pixels to the nearest predicted edge
(NaN if there is no reference edge). -/
noncomputable def compute_depth_boundary_error {m n : ℕ}
    (e : Fin m → Fin n → Bool) (d : Fin m → Fin n → ℚ) :
    Option ℝ × Option ℝ × Finset (Fin m × Fin n) :=
  let P := predEdges d
  let R := refEdges e
  ((if P.Nonempty then some ((∑ p ∈ P, distToEdges R p) / (P.card : ℝ)) else none),
   (if R.Nonempty then some ((∑ p ∈ R, distToEdges P p) / (R.card : ℝ)) else none),
   P)

/-- C7: `compute_depth_boundary_error` signals degenerate inputs with NaN —
with zero predicted-edge pixels `dbe_acc` is NaN while `dbe_com` remains
computable and equals the capped maximum distance; with zero reference-edge
pixels `dbe_com` is NaN. -/
theorem compute_depth_boundary_error_degenerate {m n : ℕ}
    (e : Fin m → Fin n → Bool) (d : Fin m → Fin n → ℚ) :
    (predEdges d = ∅ →
      (compute_depth_boundary_error e d).1 = none ∧
        ((refEdges e).Nonempty →
          (compute_depth_boundary_error e d).2.1 = some dbeCap)) ∧
      (refEdges e = ∅ → (compute_depth_boundary_error e d).2.1 = none) := by
  constructor
  · intro hP
    constructor
    · unfold compute_depth_boundary_error
      simp [hP]
    · intro hR
      have hcard : ((refEdges e).card : ℝ) ≠ 0 := by
        have : 0 < (refEdges e).card := Finset.card_pos.mpr hR
        exact_mod_cast Nat.pos_iff_ne_zero.mp this
      have hdist : ∀ p ∈ refEdges e, distToEdges (predEdges d) p = dbeCap := by
        intro p hp
        unfold distToEdges
        rw [hP]
        simp
      unfold compute_depth_boundary_error
      simp only [hR, if_pos]
      rw [Finset.sum_congr rfl hdist, Finset.sum_const, nsmul_eq_mul,
        mul_div_cancel_left₀ _ hcard]
  · intro hR
    unfold compute_depth_boundary_error
    simp [hR]

/-- Witness for C7: a flat 1-by-1 predicted depth map has no predicted
edges, so `dbe_acc` is NaN while `dbe_com` equals the capped maximum
distance for a reference map with an edge pixel. -/
theorem compute_depth_boundary_error_degenerate_witness :
    (compute_depth_boundary_error ((fun _ _ => true) : Fin 1 → Fin 1 → Bool)
        ((fun _ _ => 0) : Fin 1 → Fin 1 → ℚ)).1 = none ∧
      (compute_depth_boundary_error ((fun _ _ => true) : Fin 1 → Fin 1 → Bool)
        ((fun _ _ => 0) : Fin 1 → Fin 1 → ℚ)).2.1 = some dbeCap := by
  have hP : predEdges ((fun _ _ => 0) : Fin 1 → Fin 1 → ℚ) = ∅ := by
    apply Finset.eq_empty_iff_forall_not_mem.mpr
    intro p
    have h1 : ¬ ((p.1 : ℕ) + 1 < 1) := by omega
    have h2 : ¬ ((p.2 : ℕ) + 1 < 1) := by omega
    simp [predEdges, gradSqAt, gradThreshSq, h1, h2]
    norm_num
  have hR : (refEdges ((fun _ _ => true) : Fin 1 → Fin 1 → Bool)).Nonempty :=
    ⟨(0, 0), by simp [refEdges]⟩
  have h := (compute_depth_boundary_error_degenerate
    ((fun _ _ => true) : Fin 1 → Fin 1 → Bool)
    ((fun _ _ => 0) : Fin 1 → Fin 1 → ℚ)).1 hP
  exact ⟨h.1, h.2 hR⟩

/-- `depth_pred = net(depth_coarse, occlusion, normal).clamp(1e-9)`: the
driver clamps the network output to the positive floor `1e-9`
(`src/testing.py` line 86). -/
def clampFloor (x : ℚ) : ℚ :=
  max x (1 / 1000000000)

/-- `valid_mask = (depth_gt != 0).float()` (`src/testing.py` line 89). -/
def valid_mask {m n : ℕ} (gt : Fin m → Fin n → ℚ) : Fin m → Fin n → ℚ :=
  fun i j => if gt i j ≠ 0 then 1 else 0

/-- `gt_valid = depth_gt * valid_mask` (`src/testing.py` line 90). -/
def gt_valid {m n : ℕ} (gt : Fin m → Fin n → ℚ) : Fin m → Fin n → ℚ :=
  fun i j => gt i j * valid_mask gt i j

/-- `pred_valid = depth_pred * valid_mask` with the clamped prediction
(`src/testing.py` lines 86 and 91). -/
def pred_valid {m n : ℕ} (gt netOut : Fin m → Fin n → ℚ) : Fin m → Fin n → ℚ :=
  fun i j => clampFloor (netOut i j) * valid_mask gt i j

/-- Row-major flattening of a grid (`.flatten()`, `src/testing.py`
lines 111-112). -/
def flattenGrid {m n : ℕ} (f : Fin m → Fin n → ℚ) : List ℚ :=
  List.ofFn (fun k : Fin (m * n) =>
    f (finProdFinEquiv.symm k).1 (finProdFinEquiv.symm k).2)

theorem flattenGrid_getElem {m n : ℕ} (f : Fin m → Fin n → ℚ) (i : Fin m)
    (j : Fin n) :
    (flattenGrid f)[((finProdFinEquiv (i, j) : Fin (m * n)) : ℕ)]? = some (f i j) := by
  unfold flattenGrid
  rw [List.getElem?_ofFn]
  have h : ((finProdFinEquiv (i, j) : Fin (m * n)) : ℕ) < m * n :=
    (finProdFinEquiv (i, j)).isLt
  unfold List.ofFnNthVal
  rw [dif_pos h]
  have heta : (⟨((finProdFinEquiv (i, j) : Fin (m * n)) : ℕ), h⟩ : Fin (m * n)) =
      finProdFinEquiv (i, j) := Fin.eta _ h
  rw [heta]
  simp only [Equiv.symm_apply_apply]

/-- C4: the driver establishes the masking invariant before every engine
call: in the flattened vectors handed to the engine, a zero ground-truth
entry occurs exactly at invalid positions (`gt = 0`), the prediction is also
zeroed there, and at valid positions both entries pass through unchanged
(the prediction as clamped). -/
theorem driver_masking_invariant {m n : ℕ} (gt netOut : Fin m → Fin n → ℚ)
    (i : Fin m) (j : Fin n) :
    ((flattenGrid (gt_valid gt))[((finProdFinEquiv (i, j) : Fin (m * n)) : ℕ)]? =
        some 0 ↔ gt i j = 0) ∧
      (gt i j = 0 →
        (flattenGrid (pred_valid gt netOut))[((finProdFinEquiv (i, j) : Fin (m * n)) : ℕ)]? =
          some 0) ∧
      (gt i j ≠ 0 →
        (flattenGrid (gt_valid gt))[((finProdFinEquiv (i, j) : Fin (m * n)) : ℕ)]? =
            some (gt i j) ∧
          (flattenGrid (pred_valid gt netOut))[((finProdFinEquiv (i, j) : Fin (m * n)) : ℕ)]? =
            some (clampFloor (netOut i j))) := by
  simp only [flattenGrid_getElem, Option.some.injEq]
  unfold gt_valid pred_valid valid_mask
  by_cases hz : gt i j = 0
  · simp [hz]
  · simp [hz]

/-- Witness for C4 on 1-by-1 grids: an invalid pixel's prediction is zeroed,
and a valid pixel's ground truth passes through. -/
theorem driver_masking_invariant_witness :
    (flattenGrid (pred_valid ((fun _ _ => 0) : Fin 1 → Fin 1 → ℚ)
        ((fun _ _ => 5) : Fin 1 → Fin 1 → ℚ)))[((finProdFinEquiv ((0 : Fin 1), (0 : Fin 1)) : Fin (1 * 1)) : ℕ)]? =
      some 0 ∧
    (flattenGrid (gt_valid ((fun _ _ => 2) : Fin 1 → Fin 1 → ℚ)))[((finProdFinEquiv ((0 : Fin 1), (0 : Fin 1)) : Fin (1 * 1)) : ℕ)]? =
      some 2 := by
  constructor
  · exact (driver_masking_invariant ((fun _ _ => 0) : Fin 1 → Fin 1 → ℚ)
      ((fun _ _ => 5) : Fin 1 → Fin 1 → ℚ) 0 0).2.1 rfl
  · exact ((driver_masking_invariant ((fun _ _ => 2) : Fin 1 → Fin 1 → ℚ)
      ((fun _ _ => 5) : Fin 1 → Fin 1 → ℚ) 0 0).2.2 (by norm_num)).1

/-- C5: at every valid position (`gt > 0`) the masked prediction the engine
receives is at least the clamp floor `1e-9`, hence strictly positive, so
`log10` is defined wherever the `log10` metric evaluates it; the flattened
vector carries exactly this value. -/
theorem driver_pred_floor {m n : ℕ} (gt netOut : Fin m → Fin n → ℚ)
    (i : Fin m) (j : Fin n) (h : 0 < gt i j) :
    1 / 1000000000 ≤ pred_valid gt netOut i j ∧
      0 < pred_valid gt netOut i j ∧
      (flattenGrid (pred_valid gt netOut))[((finProdFinEquiv (i, j) : Fin (m * n)) : ℕ)]? =
        some (pred_valid gt netOut i j) := by
  have hne : gt i j ≠ 0 := ne_of_gt h
  have hm : pred_valid gt netOut i j = clampFloor (netOut i j) := by
    unfold pred_valid valid_mask
    simp [hne]
  refine ⟨?_, ?_, flattenGrid_getElem _ i j⟩
  · rw [hm]
    exact le_max_right _ _
  · rw [hm]
    exact lt_of_lt_of_le (by norm_num) (le_max_right _ _)

/-- Witness for C5: a valid pixel (`gt = 2`) whose raw network output is 0
still reaches the engine at the floor `1e-9`. -/
theorem driver_pred_floor_witness :
    1 / 1000000000 ≤ pred_valid ((fun _ _ => 2) : Fin 1 → Fin 1 → ℚ)
        ((fun _ _ => 0) : Fin 1 → Fin 1 → ℚ) 0 0 ∧
      0 < pred_valid ((fun _ _ => 2) : Fin 1 → Fin 1 → ℚ)
        ((fun _ _ => 0) : Fin 1 → Fin 1 → ℚ) 0 0 ∧
      (flattenGrid (pred_valid ((fun _ _ => 2) : Fin 1 → Fin 1 → ℚ)
          ((fun _ _ => 0) : Fin 1 → Fin 1 → ℚ)))[((finProdFinEquiv ((0 : Fin 1), (0 : Fin 1)) : Fin (1 * 1)) : ℕ)]? =
        some (pred_valid ((fun _ _ => 2) : Fin 1 → Fin 1 → ℚ)
          ((fun _ _ => 0) : Fin 1 → Fin 1 → ℚ) 0 0) :=
  driver_pred_floor ((fun _ _ => 2) : Fin 1 → Fin 1 → ℚ)
    ((fun _ _ => 0) : Fin 1 → Fin 1 → ℚ) 0 0 (by norm_num)

/-- The per-sample input the external collaborator hands the driver loop:
ground-truth depth grid, network output grid, and reference edge map
(`src/testing.py` lines 82-86; the network forward pass itself is the
out-of-scope collaborator). -/
structure Sample (m n : ℕ) where
  depth_gt : Fin m → Fin n → ℚ
  netOut : Fin m → Fin n → ℚ
  edge : Fin m → Fin n → Bool

/-- One loop iteration's engine calls (`src/testing.py` lines 86-116):
clamp, mask, flatten, then compute global, boundary and directed errors. -/
noncomputable def processSample {m n : ℕ} (s : Sample m n) :
    (Option ℝ × Option ℝ × Option ℝ × Option ℝ × Option ℝ × Option ℝ × Option ℝ) ×
      (Option ℝ × Option ℝ) × (Option ℝ × Option ℝ × Option ℝ) :=
  let gt_vec := flattenGrid (gt_valid s.depth_gt)
  let pred_vec := flattenGrid (pred_valid s.depth_gt s.netOut)
  let boundary := compute_depth_boundary_error s.edge (pred_valid s.depth_gt s.netOut)
  (compute_global_errors gt_vec pred_vec,
   (boundary.1, boundary.2.1),
   compute_directed_depth_error gt_vec pred_vec 3)

/-- The twelve per-dataset metric arrays (`src/testing.py` lines 62-76). -/
structure MetricArrays where
  abs_rel : List (Option ℝ)
  sq_rel : List (Option ℝ)
  rms : List (Option ℝ)
  log10 : List (Option ℝ)
  thr1 : List (Option ℝ)
  thr2 : List (Option ℝ)
  thr3 : List (Option ℝ)
  dbe_acc : List (Option ℝ)
  dbe_com : List (Option ℝ)
  dde_0 : List (Option ℝ)
  dde_m : List (Option ℝ)
  dde_p : List (Option ℝ)

/-- `np.zeros(num_samples)` twelve times, before the loop
(`src/testing.py` lines 62-76). -/
noncomputable def initArrays (num_samples : ℕ) : MetricArrays :=
  ⟨List.replicate num_samples (some 0), List.replicate num_samples (some 0),
   List.replicate num_samples (some 0), List.replicate num_samples (some 0),
   List.replicate num_samples (some 0), List.replicate num_samples (some 0),
   List.replicate num_samples (some 0), List.replicate num_samples (some 0),
   List.replicate num_samples (some 0), List.replicate num_samples (some 0),
   List.replicate num_samples (some 0), List.replicate num_samples (some 0)⟩

/-- The writes of loop iteration `i`: sample `i`'s engine outputs are stored
at index `i` of each of the twelve arrays (`src/testing.py` lines 114-116). -/
noncomputable def testStep {m n : ℕ} (s : Sample m n) (i : ℕ)
    (a : MetricArrays) : MetricArrays :=
  let r := processSample s
  ⟨a.abs_rel.set i r.1.1, a.sq_rel.set i r.1.2.1, a.rms.set i r.1.2.2.1,
   a.log10.set i r.1.2.2.2.1, a.thr1.set i r.1.2.2.2.2.1,
   a.thr2.set i r.1.2.2.2.2.2.1, a.thr3.set i r.1.2.2.2.2.2.2,
   a.dbe_acc.set i r.2.1.1, a.dbe_com.set i r.2.1.2, a.dde_0.set i r.2.2.1,
   a.dde_m.set i r.2.2.2.1, a.dde_p.set i r.2.2.2.2⟩

/-- The evaluation loop of `test` (`src/testing.py` lines 60-116). -/
noncomputable def test {m n : ℕ} (samples : List (Sample m n)) : MetricArrays :=
  (samples.enum).foldl (fun a p => testStep p.2 p.1 a) (initArrays samples.length)

/-- The twelve arrays in the order `test` returns them
(`src/testing.py` line 118). -/
noncomputable def testOutputs {m n : ℕ} (samples : List (Sample m n)) :=
  let a := test samples
  (a.abs_rel, a.sq_rel, a.rms, a.log10, a.thr1, a.thr2, a.thr3,
   a.dbe_acc, a.dbe_com, a.dde_0, a.dde_m, a.dde_p)

/-- The twelve entries of the metric arrays at one index. -/
def arraysAt? (a : MetricArrays) (j : ℕ) :=
  (a.abs_rel[j]?, a.sq_rel[j]?, a.rms[j]?, a.log10[j]?, a.thr1[j]?, a.thr2[j]?,
   a.thr3[j]?, a.dbe_acc[j]?, a.dbe_com[j]?, a.dde_0[j]?, a.dde_m[j]?, a.dde_p[j]?)

/-- The twelve array lengths. -/
def arraysLen (a : MetricArrays) :=
  (a.abs_rel.length, a.sq_rel.length, a.rms.length, a.log10.length,
   a.thr1.length, a.thr2.length, a.thr3.length, a.dbe_acc.length,
   a.dbe_com.length, a.dde_0.length, a.dde_m.length, a.dde_p.length)

/-- C9: each of the twelve metric arrays is allocated once with length equal
to the sample count before the loop starts; the step for sample `i` keeps
every length and changes no entry at an index other than `i`; and `test`
runs exactly this step over the enumerated samples from the allocated
arrays. -/
theorem metric_arrays_alloc_frame {m n : ℕ} (s : Sample m n)
    (samples : List (Sample m n)) (k i j : ℕ) (a : MetricArrays)
    (hij : j ≠ i) :
    arraysLen (initArrays k) = (k, k, k, k, k, k, k, k, k, k, k, k) ∧
      arraysLen (testStep s i a) = arraysLen a ∧
      arraysAt? (testStep s i a) j = arraysAt? a j ∧
      test samples =
        (samples.enum).foldl (fun a p => testStep p.2 p.1 a)
          (initArrays samples.length) := by
  refine ⟨?_, ?_, ?_, rfl⟩
  · unfold arraysLen initArrays
    simp
  · unfold arraysLen testStep
    simp
  · unfold arraysAt? testStep
    simp only [List.getElem?_set_ne (Ne.symm hij)]

/-- Witness for C9 on a singleton 1-by-1 sample with two-slot arrays:
writing slot 0 leaves slot 1 untouched. -/
theorem metric_arrays_alloc_frame_witness :
    arraysLen (initArrays 2) = (2, 2, 2, 2, 2, 2, 2, 2, 2, 2, 2, 2) ∧
      arraysLen (testStep (⟨fun _ _ => 0, fun _ _ => 0, fun _ _ => false⟩ : Sample 1 1)
          0 (initArrays 2)) = arraysLen (initArrays 2) ∧
      arraysAt? (testStep (⟨fun _ _ => 0, fun _ _ => 0, fun _ _ => false⟩ : Sample 1 1)
          0 (initArrays 2)) 1 = arraysAt? (initArrays 2) 1 ∧
      test [(⟨fun _ _ => 0, fun _ _ => 0, fun _ _ => false⟩ : Sample 1 1)] =
        ([(⟨fun _ _ => 0, fun _ _ => 0, fun _ _ => false⟩ : Sample 1 1)].enum).foldl
          (fun a p => testStep p.2 p.1 a)
          (initArrays [(⟨fun _ _ => 0, fun _ _ => 0, fun _ _ => false⟩ : Sample 1 1)].length) :=
  metric_arrays_alloc_frame (⟨fun _ _ => 0, fun _ _ => 0, fun _ _ => false⟩ : Sample 1 1)
    [(⟨fun _ _ => 0, fun _ _ => 0, fun _ _ => false⟩ : Sample 1 1)]
    2 0 1 (initArrays 2) (by decide)

/-- `np.nanmean`: mean of the non-NaN entries of an array, NaN when every
entry is NaN (used at `src/testing.py` lines 131-143 and 150-162). -/
noncomputable def nanmean (xs : List (Option ℝ)) : Option ℝ :=
  let v := xs.filterMap id
  if v.length = 0 then none else some (v.sum / (v.length : ℝ))

/-- The labelled metric values the driver prints to the console
(`src/testing.py` lines 130-143): `rel` is the NaN-skipping mean of
`abs_rel`, then `log10, rms, thr1, thr2, thr3, dbe_acc, dbe_com`, and the
three directed rates scaled by 100; `sq_rel` does not appear. -/
noncomputable def consoleReport (abs_rel sq_rel rms log10 thr1 thr2 thr3
    dbe_acc dbe_com dde_0 dde_m dde_p : List (Option ℝ)) :
    List (String × Option ℝ) :=
  [("rel", nanmean abs_rel), ("log10", nanmean log10), ("rms", nanmean rms),
   ("thr1", nanmean thr1), ("thr2", nanmean thr2), ("thr3", nanmean thr3),
   ("dbe_acc", nanmean dbe_acc), ("dbe_com", nanmean dbe_com),
   ("dde_0", (nanmean dde_0).map (fun x => x * 100)),
   ("dde_m", (nanmean dde_m).map (fun x => x * 100)),
   ("dde_p", (nanmean dde_p).map (fun x => x * 100))]

/-- The labelled metric values the driver writes to the summary text file
(`src/testing.py` lines 148-162): the same eleven values, recomputed; the
numeric formatting of the `%.3f` layout is not modelled. -/
noncomputable def fileReport (abs_rel sq_rel rms log10 thr1 thr2 thr3
    dbe_acc dbe_com dde_0 dde_m dde_p : List (Option ℝ)) :
    List (String × Option ℝ) :=
  [("rel", nanmean abs_rel), ("log10", nanmean log10), ("rms", nanmean rms),
   ("thr1", nanmean thr1), ("thr2", nanmean thr2), ("thr3", nanmean thr3),
   ("dbe_acc", nanmean dbe_acc), ("dbe_com", nanmean dbe_com),
   ("dde_0", (nanmean dde_0).map (fun x => x * 100)),
   ("dde_m", (nanmean dde_m).map (fun x => x * 100)),
   ("dde_p", (nanmean dde_p).map (fun x => x * 100))]

theorem nanmean_skips_nan (xs ys : List (Option ℝ)) :
    nanmean (xs ++ none :: ys) = nanmean (xs ++ ys) := by
  unfold nanmean
  rw [List.filterMap_append, List.filterMap_append, List.filterMap_cons_none rfl]

/-- C8 is false as stated: the aggregate of the `sq_rel` array (here the
distinctive value 5) appears in neither the console report nor the file
report, so the driver does not aggregate every one of the twelve arrays. -/
theorem report_omits_sq_rel_cex :
    nanmean [some (5 : ℝ)] = some 5 ∧
      some (5 : ℝ) ∉ (consoleReport [some 0] [some 5] [some 0] [some 0]
          [some 0] [some 0] [some 0] [some 0] [some 0] [some 0] [some 0]
          [some 0]).map Prod.snd ∧
      some (5 : ℝ) ∉ (fileReport [some 0] [some 5] [some 0] [some 0]
          [some 0] [some 0] [some 0] [some 0] [some 0] [some 0] [some 0]
          [some 0]).map Prod.snd := by
  have h5 : nanmean [some (5 : ℝ)] = some 5 := by
    unfold nanmean
    simp
  have h0 : nanmean [some (0 : ℝ)] = some 0 := by
    unfold nanmean
    simp
  refine ⟨h5, ?_, ?_⟩ <;>
    simp [consoleReport, fileReport, h0]

/-- C8 (amended): the driver aggregates eleven of the twelve per-sample
metric arrays — every one except `sq_rel` — with the NaN-skipping mean
`nanmean`, identically for console output and summary file, and `nanmean`
does skip NaN entries. -/
theorem report_nan_skipping (abs_rel sq_rel rms log10 thr1 thr2 thr3
    dbe_acc dbe_com dde_0 dde_m dde_p : List (Option ℝ)) :
    fileReport abs_rel sq_rel rms log10 thr1 thr2 thr3 dbe_acc dbe_com
        dde_0 dde_m dde_p =
      consoleReport abs_rel sq_rel rms log10 thr1 thr2 thr3 dbe_acc dbe_com
        dde_0 dde_m dde_p ∧
      (consoleReport abs_rel sq_rel rms log10 thr1 thr2 thr3 dbe_acc dbe_com
          dde_0 dde_m dde_p).map Prod.fst =
        ["rel", "log10", "rms", "thr1", "thr2", "thr3", "dbe_acc", "dbe_com",
         "dde_0", "dde_m", "dde_p"] ∧
      ∀ xs ys : List (Option ℝ), nanmean (xs ++ none :: ys) = nanmean (xs ++ ys) :=
  ⟨rfl, rfl, nanmean_skips_nan⟩

/-- C10: `sq_rel` is computed per sample by the global-error routine, stored
at the sample's index, and returned by `test` as the second of the twelve
arrays, yet no `sq_rel` line exists in the console or file report. -/
theorem sq_rel_computed_but_unreported {m n : ℕ} (samples : List (Sample m n))
    (s : Sample m n) (i : ℕ) (a : MetricArrays)
    (abs_rel sq_rel rms log10 thr1 thr2 thr3 dbe_acc dbe_com dde_0 dde_m
      dde_p : List (Option ℝ)) :
    (testOutputs samples).2.1 = (test samples).sq_rel ∧
      (testStep s i a).sq_rel =
        a.sq_rel.set i
          (compute_global_errors (flattenGrid (gt_valid s.depth_gt))
            (flattenGrid (pred_valid s.depth_gt s.netOut))).2.1 ∧
      "sq_rel" ∉ (consoleReport abs_rel sq_rel rms log10 thr1 thr2 thr3
          dbe_acc dbe_com dde_0 dde_m dde_p).map Prod.fst ∧
      "sq_rel" ∉ (fileReport abs_rel sq_rel rms log10 thr1 thr2 thr3
          dbe_acc dbe_com dde_0 dde_m dde_p).map Prod.fst := by
  refine ⟨rfl, rfl, ?_, ?_⟩ <;> simp [consoleReport, fileReport]
